import Mathlib

/-!
Shallow embedding of the `youtube_downloader` package
(`src/youtube_downloader/downloader.py`, `src/youtube_downloader/utils.py`)
into Lean 4, together with theorems settling the frozen claims about it.

Modelling conventions:
* External collaborators (pytubefix stream resolution, the filesystem, the
  network transfer, ffmpeg) are represented by explicit data: a `Video`
  carries the candidate stream list that `yt.streams` would yield, and an
  `Env` records the outcome of each effectful step (byte transfer, ffmpeg
  availability, ffmpeg run, rename).  An exception raised by an effectful
  Python step is modelled by the corresponding `Option String` error field
  being `some msg`.
* Machine integers are `Nat`/`Int`; `max_concurrent` is an `Int` because
  the claims quantify over non-positive values.
* The orchestrator (`download_playlist`) treats `download_single_video` as
  an opaque boolean-returning call, exactly as the Python loop does; its
  per-item, per-round outcomes are abstracted by an oracle
  `ok : Nat → Nat → Bool` (`ok index round`, round 0 being the initial
  concurrent pass).  `concurrent.futures.Executor.map` is documented to
  return results in the order of the input iterable, irrespective of task
  completion order, so the initial pass result list is the enumeration
  order; completion-order non-determinism is therefore invisible in the
  collected results and the oracle quantification covers all outcome
  assignments.
* Python functions that return `None` and communicate through the log
  (`download_playlist`, `download`) are embedded as functions returning
  the aggregate they log (total, succeeded, ordered failed list); an
  exception propagating out of them is an `Except.error`.
-/

/-- Stream metadata as exposed by the external stream resolver for one
candidate encoding: whether it is audio-only, whether it is progressive
(combined audio+video), its container extension, its resolution label
(e.g. "720p"), and numeric ranks used by the resolver's
`get_highest_resolution` / `get_audio_only` ordering. -/
structure StreamInfo where
  onlyAudio : Bool
  progressive : Bool
  fileExtension : String
  res : String
  resRank : Nat
  abrRank : Nat
deriving DecidableEq

/-- One remote item as the resolver presents it: title, watch URL, the
candidate streams `yt.streams` would enumerate, and a flag recording
whether querying the streams raises (pytubefix may throw during stream
resolution; `get_stream` catches this). -/
structure Video where
  title : String
  watchUrl : String
  streams : List StreamInfo
  streamsRaise : Bool
deriving DecidableEq

/-- Configuration passed to `YouTubeDownloader.__init__` (downloader.py
lines 14-33): the constructor stores the fields unvalidated. The output
directory is kept abstract (paths never influence the claims). -/
structure Config where
  quality : String
  audioOnly : Bool
  audioFormat : String
  prefixIndex : Bool
  retry : Bool
  retryAttempts : Nat
  maxConcurrent : Int
deriving DecidableEq

/-- Outcomes of the effectful steps of one `download_single_video` call:
`transferError` is `some msg` when accessing `stream.filesize` or
`stream.download` raises; `ffmpegAvailable` is the result of
`shutil.which("ffmpeg") is not None`; `ffmpegRunOk` is whether the
`subprocess.run` + `unlink` sequence completes without raising;
`renameError` is `some msg` when `temp_path.rename` raises. -/
structure Env where
  transferError : Option String
  ffmpegAvailable : Bool
  ffmpegRunOk : Bool
  renameError : Option String
deriving DecidableEq

/-- Aggregate reported by the batch summary: total item count, succeeded
count, and the ordered list of (1-based index, item) pairs that remained
failed after all retries. -/
structure BatchResult where
  total : Nat
  succeeded : Nat
  failed : List (Nat × Video)
deriving DecidableEq

/-! ## utils.py -/

/-- Character class of the regular expression in `sanitize_filename`
(utils.py line 18): the characters removed from a name. -/
def badChar (c : Char) : Bool :=
  c = '<' || c = '>' || c = ':' || c = '"' || c = '/' ||
  c = '\\' || c = '|' || c = '?' || c = '*'

/-- Left-to-right scan of `re.sub(r'[<>:"/\\|?*]', '', s)`: each character
matching the single-character class is deleted, all others are kept. -/
def reSubDeleteBad : List Char → List Char
  | [] => []
  | c :: cs => if badChar c then reSubDeleteBad cs else c :: reSubDeleteBad cs

/-- Whitespace characters stripped by Python `str.strip()` (restricted to
the ASCII range; the titles and claims involve only ASCII whitespace). -/
def pyIsSpace (c : Char) : Bool :=
  c = ' ' || c = '\t' || c = '\n' || c = '\r' || c = '\x0b' || c = '\x0c'

/-- Python `str.strip()`: drop leading whitespace, then drop trailing
whitespace (implemented by reversing, dropping, and reversing back). -/
def stripChars (cs : List Char) : List Char :=
  ((cs.dropWhile pyIsSpace).reverse.dropWhile pyIsSpace).reverse

/-- Embedding of `sanitize_filename` (utils.py lines 9-18):
`re.sub(r'[<>:"/\\|?*]', '', filename).strip()`. -/
def sanitize_filename (s : String) : String :=
  (stripChars (reSubDeleteBad s.toList)).asString

/-- Embedding of `check_ffmpeg` (utils.py lines 20-26):
`shutil.which("ffmpeg") is not None`, read from the environment. -/
def check_ffmpeg (env : Env) : Bool :=
  env.ffmpegAvailable

/-- Embedding of `convert_to_mp3` (utils.py lines 28-51): returns `false`
when ffmpeg is missing, `true` when the `subprocess.run` (with
`check=True`) and the `unlink` of the input complete, and `false` when
any of that raises (the body's `except` clause returns `False`). -/
def convert_to_mp3 (env : Env) : Bool :=
  if !(check_ffmpeg env) then false
  else env.ffmpegRunOk

/-! ## Filename computation (downloader.py lines 90-93) -/

/-- Python `f"{n:02d}"` for a non-negative integer: decimal digits,
left-padded with zeros to a minimum width of two. -/
def pad2 (n : Nat) : String :=
  if n < 10 then "0" ++ toString n else toString n

/-- Extension chosen at downloader.py line 90: `"mp3"` when
`self.audio_only and self.audio_format == "mp3"`, else `"mp4"`. -/
def audio_ext (cfg : Config) : String :=
  if cfg.audioOnly && (cfg.audioFormat == "mp3") then "mp3" else "mp4"

/-- Filename computed at downloader.py lines 90-93:
`sanitize_filename(yt.title) + "." + ext`, with the
`f"{index:02d}_{filename}"` prefix applied exactly when an index was
supplied and `self.prefix_index` holds. -/
def target_filename (cfg : Config) (title : String) (index : Option Nat) : String :=
  let f := sanitize_filename title ++ "." ++ audio_ext cfg
  match index with
  | some i => if cfg.prefixIndex then pad2 i ++ "_" ++ f else f
  | none => f

/-- Stem of a file name in the sense of `pathlib`: the name with its last
dot-suffix removed; a name whose only dot is at position 0 (a dotfile)
or that contains no dot has no suffix and is its own stem. -/
def stemOf (name : String) : String :=
  let cs := name.toList
  let revTail := cs.reverse.takeWhile (fun c => !(c = '.'))
  if (cs.reverse.dropWhile (fun c => !(c = '.'))).isEmpty then name
  else
    let stemLen := cs.length - revTail.length - 1
    if stemLen = 0 then name
    else (cs.take stemLen).asString

/-- Embedding of `Path(name).with_suffix(suffix)` on the final path
component: replace the last suffix of the name by `suffix`. -/
def withSuffix (name suffix : String) : String :=
  stemOf name ++ suffix

/-! ## get_stream (downloader.py lines 47-66) -/

/-- Model of pytubefix `StreamQuery.get_audio_only` on an
already-filtered list: the stream with the greatest audio-bitrate rank
(the last element of the ascending ordering, so later elements win
ties), or `none` on an empty list. -/
def get_audio_only : List StreamInfo → Option StreamInfo
  | [] => none
  | s :: rest =>
    match get_audio_only rest with
    | none => some s
    | some t => if t.abrRank ≥ s.abrRank then some t else some s

/-- Model of pytubefix `StreamQuery.get_highest_resolution`: the first
stream of maximal resolution rank, or `none` on an empty list. -/
def get_highest_resolution : List StreamInfo → Option StreamInfo
  | [] => none
  | s :: rest =>
    match get_highest_resolution rest with
    | none => some s
    | some t => if t.resRank > s.resRank then some t else some s

/-- Embedding of `YouTubeDownloader.get_stream` (downloader.py lines
47-66).  The whole body is wrapped in `try/except`; a raise while
querying the streams (modelled by `yt.streamsRaise`) is caught and turns
into `None`.  Otherwise: in audio-only mode, filter to audio-only mp4
streams and take `get_audio_only() or first()`; else filter to
progressive mp4 streams and take the highest resolution for quality
`"highest"`, or the first stream matching the requested resolution. -/
def get_stream (cfg : Config) (yt : Video) : Option StreamInfo :=
  if yt.streamsRaise then none
  else if cfg.audioOnly then
    let streams := yt.streams.filter (fun s => s.onlyAudio && (s.fileExtension == "mp4"))
    match get_audio_only streams with
    | some s => some s
    | none => streams.head?
  else
    let streams := yt.streams.filter (fun s => s.progressive && (s.fileExtension == "mp4"))
    if cfg.quality == "highest" then get_highest_resolution streams
    else (streams.filter (fun s => s.res == cfg.quality)).head?

/-! ## download_single_video (downloader.py lines 68-121) -/

/-- Success flag together with the name (inside the output directory) of
the file holding the downloaded bytes when the call returns, `none` when
nothing was kept. -/
structure FileOutcome where
  succeeded : Bool
  savedFile : Option String
deriving DecidableEq

/-- Embedding of `YouTubeDownloader.download_single_video` (downloader.py
lines 68-121), returning both the boolean result and the kept file.  The
body is one `try/except` returning `False` on any raise:
no suitable stream ⇒ `False`; a raise while reading `stream.filesize` or
during `stream.download` (modelled by `env.transferError`) ⇒ `False`.
The bytes land at `temp_... ` when an mp3 conversion is pending, else at
the final name.  In the mp3 branch, a failed `convert_to_mp3` triggers
`temp_path.rename(output_path.with_suffix(".mp4"))`; a raise during that
rename is caught by the outer handler (⇒ `False`, temp file left
behind), otherwise the call returns `True`. -/
def download_single_video_full (cfg : Config) (yt : Video) (env : Env)
    (index : Option Nat) : FileOutcome :=
  match get_stream cfg yt with
  | none => ⟨false, none⟩
  | some _ =>
    let fname := target_filename cfg yt.title index
    let tempName := if cfg.audioOnly && (cfg.audioFormat == "mp3")
      then "temp_" ++ fname else fname
    match env.transferError with
    | some _ => ⟨false, none⟩
    | none =>
      if cfg.audioOnly && (cfg.audioFormat == "mp3") then
        if convert_to_mp3 env then ⟨true, some fname⟩
        else
          match env.renameError with
          | some _ => ⟨false, some tempName⟩
          | none => ⟨true, some (withSuffix fname ".mp4")⟩
      else ⟨true, some fname⟩

/-- Boolean result of `download_single_video`, as seen by its callers. -/
def download_single_video (cfg : Config) (yt : Video) (env : Env)
    (index : Option Nat) : Bool :=
  (download_single_video_full cfg yt env index).succeeded

/-! ## download_playlist (downloader.py lines 123-181) -/

/-- Python `enumerate(videos, 1)`: pair each element with its 1-based
position. -/
def enumFrom : Nat → List Video → List (Nat × Video)
  | _, [] => []
  | n, v :: vs => (n, v) :: enumFrom (n + 1) vs

/-- Tally loop of downloader.py lines 148-152: walk the collected
results in order, incrementing `success_count` on success and appending
`(index, video)` to `failed_videos` on failure. -/
def tally : List (Nat × Video × Bool) → Nat → List (Nat × Video) → Nat × List (Nat × Video)
  | [], sc, failed => (sc, failed)
  | (i, v, s) :: rest, sc, failed =>
    if s then tally rest (sc + 1) failed
    else tally rest sc (failed ++ [(i, v)])

/-- Result list of the initial concurrent pass (downloader.py lines
141-146): `executor.map` over `enumerate(playlist.videos, 1)` returns
the `(index, video, result)` triples in input order (the `Executor.map`
contract), with the per-item result given by the oracle at round 0. -/
def initResults (videos : List Video) (ok : Nat → Nat → Bool) : List (Nat × Video × Bool) :=
  (enumFrom 1 videos).map (fun p => (p.1, p.2, ok p.1 0))

/-- State `(success_count, failed_videos)` after the initial pass has
been tallied (downloader.py lines 148-152). -/
def initTally (videos : List Video) (ok : Nat → Nat → Bool) : Nat × List (Nat × Video) :=
  tally (initResults videos ok) 0 []

/-- One retry round (downloader.py lines 159-166): walk the failed list
in order, re-invoking the download for each item; successes increment
`success_count`, failures are appended to `still_failed` in order. -/
def retryRound (ok : Nat → Nat → Bool) (attempt : Nat) :
    List (Nat × Video) → Nat → Nat × List (Nat × Video)
  | [], sc => (sc, [])
  | (i, v) :: rest, sc =>
    if ok i attempt then retryRound ok attempt rest (sc + 1)
    else
      let r := retryRound ok attempt rest sc
      (r.1, (i, v) :: r.2)

/-- Retry loop of downloader.py lines 156-169: rounds
`attempt = 1 .. retry_attempts` (the first argument is the number of
rounds still allowed), each rewriting `failed_videos` to `still_failed`;
the loop breaks as soon as the failed list is empty. -/
def retryLoop (ok : Nat → Nat → Bool) :
    Nat → Nat → Nat → List (Nat × Video) → Nat × List (Nat × Video)
  | 0, _, sc, failed => (sc, failed)
  | r + 1, attempt, sc, failed =>
    let p := retryRound ok attempt failed sc
    if p.2.isEmpty then (p.1, p.2)
    else retryLoop ok r (attempt + 1) p.1 p.2

/-- Embedding of `YouTubeDownloader.download_playlist` (downloader.py
lines 123-181).  `ThreadPoolExecutor(max_workers=n)` raises
`ValueError("max_workers must be greater than 0")` for `n <= 0` before
any task runs, which propagates out of the method; otherwise the initial
concurrent pass is tallied, the retry loop runs only when
`self.retry and failed_videos`, and the summary reports
`len(playlist.videos)`, the final `success_count` and the final
`failed_videos` list (downloader.py lines 172-181). -/
def download_playlist (cfg : Config) (videos : List Video)
    (ok : Nat → Nat → Bool) : Except String BatchResult :=
  if cfg.maxConcurrent ≤ 0 then Except.error "max_workers must be greater than 0"
  else
    let t := initTally videos ok
    let r := if cfg.retry && !t.2.isEmpty
      then retryLoop ok cfg.retryAttempts 1 t.1 t.2
      else t
    Except.ok ⟨videos.length, r.1, r.2⟩

/-! ### Invocation traces (ghost instrumentation)

The following definitions mirror the control flow of `download_playlist`
and record, instead of the tallies, which `(index, round)` pairs lead to
an invocation of `download_single_video`: round 0 is the initial
concurrent pass, round `a ≥ 1` the `a`-th retry round.  Each mirrors the
same recursion (same guards, same `still_failed` computation via
`retryRound`, same early break) so that the trace is the invocation
sequence of the source loop. -/

/-- Invocations performed by the retry loop, given the remaining round
budget, the current round number and the current failed list. -/
def retryTrace (ok : Nat → Nat → Bool) :
    Nat → Nat → List (Nat × Video) → List (Nat × Nat)
  | 0, _, _ => []
  | r + 1, attempt, failed =>
    failed.map (fun p => (p.1, attempt)) ++
      (let sf := (retryRound ok attempt failed 0).2
       if sf.isEmpty then [] else retryTrace ok r (attempt + 1) sf)

/-- Number of retry rounds the loop actually executes, mirroring
`retryLoop`'s recursion (each executed round counts once; the break on
an empty failed list stops the count). -/
def retryRoundsRun (ok : Nat → Nat → Bool) :
    Nat → Nat → List (Nat × Video) → Nat
  | 0, _, _ => 0
  | r + 1, attempt, failed =>
    let sf := (retryRound ok attempt failed 0).2
    if sf.isEmpty then 1 else 1 + retryRoundsRun ok r (attempt + 1) sf

/-- Failed set reached from `f` after executing rounds
`a, a+1, …, a+k-1`: each round keeps exactly the items whose download
fails again in that round. -/
def iterFailed (ok : Nat → Nat → Bool) : Nat → Nat → List (Nat × Video) → List (Nat × Video)
  | 0, _, f => f
  | k + 1, a, f => iterFailed ok k (a + 1) (f.filter (fun p => !(ok p.1 a)))

/-- Full invocation trace of `download_playlist`: nothing when the
worker-pool construction rejects the concurrency bound; otherwise every
item once at round 0, followed by the retry-loop invocations when the
retry guard (downloader.py line 155) is taken. -/
def playlistTrace (cfg : Config) (videos : List Video)
    (ok : Nat → Nat → Bool) : List (Nat × Nat) :=
  if cfg.maxConcurrent ≤ 0 then []
  else
    let t := initTally videos ok
    (enumFrom 1 videos).map (fun p => (p.1, 0)) ++
      (if cfg.retry && !t.2.isEmpty then retryTrace ok cfg.retryAttempts 1 t.2 else [])

/-- Number of retry rounds `download_playlist` executes. -/
def playlistRoundsRun (cfg : Config) (videos : List Video)
    (ok : Nat → Nat → Bool) : Nat :=
  if cfg.maxConcurrent ≤ 0 then 0
  else
    let t := initTally videos ok
    if cfg.retry && !t.2.isEmpty then retryRoundsRun ok cfg.retryAttempts 1 t.2 else 0

/-! ## download (downloader.py lines 183-205) -/

/-- Substring test of Python's `in` operator on strings: some split
position of the haystack starts with the needle. -/
def strContains (hay needle : String) : Bool :=
  (List.range (hay.toList.length + 1)).any
    (fun i => needle.toList.isPrefixOf (hay.toList.drop i))

/-- Python `str.lower()` restricted to ASCII case mapping: lower-case
each character (URLs in the claims are ASCII). -/
def pyLower (s : String) : String :=
  (s.toList.map Char.toLower).asString

/-- Dispatch test at downloader.py line 190: `"playlist" in url.lower()`. -/
def containsPlaylist (url : String) : Bool :=
  strContains (pyLower url) "playlist"

/-- Summary logged on the single-video path (downloader.py lines
197-205): total 1, success 1 or 0, and the single item listed as failed
when the download returned `False` (the log line carries the title and
watch URL; we record the one item at position 1). -/
def singleSummary (cfg : Config) (yt : Video) (env : Env) : BatchResult :=
  if download_single_video cfg yt env none then ⟨1, 1, []⟩
  else ⟨1, 0, [(1, yt)]⟩

/-- Embedding of `YouTubeDownloader.download` (downloader.py lines
183-205): if the lower-cased URL contains `"playlist"`, run the playlist
path (whose exceptions the `except` clause re-raises); otherwise invoke
`download_single_video` once with no index argument and log the
degenerate summary.  The function itself returns `None`; the embedding
returns the logged aggregate (or the propagated error). -/
def download (cfg : Config) (url : String) (pl : List Video)
    (single : Video) (ok : Nat → Nat → Bool) (env : Env) : Except String BatchResult :=
  if containsPlaylist url then download_playlist cfg pl ok
  else Except.ok (singleSummary cfg single env)

/-- Index arguments with which `download` invokes
`download_single_video`, in invocation order: the playlist path passes
each traced item's index, the single path passes no index (the `index`
parameter defaults to `None` at the call on downloader.py line 198). -/
def downloadCalls (cfg : Config) (url : String) (pl : List Video)
    (ok : Nat → Nat → Bool) : List (Option Nat) :=
  if containsPlaylist url then (playlistTrace cfg pl ok).map (fun p => some p.1)
  else [none]

/-! ## Helper lemmas -/

/-- Scanning deletion of the character class agrees with filtering to the
characters outside the class. -/
theorem reSubDeleteBad_eq_filter (cs : List Char) :
    reSubDeleteBad cs = cs.filter (fun c => !(badChar c)) := by
  induction cs with
  | nil => rfl
  | cons c cs ih =>
    by_cases h : badChar c <;> simp [reSubDeleteBad, List.filter_cons, h, ih]

/-- Splitting a list by a Boolean predicate splits its length. -/
theorem length_filter_partition {α : Type} (l : List α) (p : α → Bool) :
    (l.filter p).length + (l.filter (fun a => !(p a))).length = l.length := by
  induction l with
  | nil => rfl
  | cons x l ih => by_cases h : p x <;> simp [List.filter_cons, h] <;> omega

/-- Closed form of the tally loop: the final count adds the number of
successes, the final failed list appends the failures in input order. -/
theorem tally_spec (rs : List (Nat × Video × Bool)) :
    ∀ sc acc, tally rs sc acc =
      (sc + (rs.filter (fun t => t.2.2)).length,
       acc ++ (rs.filter (fun t => !t.2.2)).map (fun t => (t.1, t.2.1))) := by
  induction rs with
  | nil => intro sc acc; simp [tally]
  | cons t rs ih =>
    intro sc acc
    obtain ⟨i, v, s⟩ := t
    cases s <;> simp [tally, ih, List.filter_cons, Nat.add_assoc, Nat.add_comm]

/-- Closed form of one retry round: the count grows by the number of
recoveries, the still-failed list is the order-preserving filter of the
items that failed again. -/
theorem retryRound_spec (ok : Nat → Nat → Bool) (a : Nat) (f : List (Nat × Video)) :
    ∀ sc, retryRound ok a f sc =
      (sc + (f.filter (fun p => ok p.1 a)).length,
       f.filter (fun p => !(ok p.1 a))) := by
  induction f with
  | nil => intro sc; simp [retryRound]
  | cons p f ih =>
    intro sc
    obtain ⟨i, v⟩ := p
    by_cases h : ok i a <;> simp [retryRound, h, ih, List.filter_cons, Nat.add_assoc, Nat.add_comm]

/-- Filtering and projecting the mapped triples of the initial pass
recovers the filters of the enumerated pairs. -/
theorem initResults_filter (ok : Nat → Nat → Bool) (l : List (Nat × Video)) :
    ((l.map (fun p => (p.1, p.2, ok p.1 0))).filter (fun t => t.2.2)).length
        = (l.filter (fun p => ok p.1 0)).length ∧
      ((l.map (fun p => (p.1, p.2, ok p.1 0))).filter (fun t => !t.2.2)).map
          (fun t => (t.1, t.2.1))
        = l.filter (fun p => !(ok p.1 0)) := by
  induction l with
  | nil => exact ⟨rfl, rfl⟩
  | cons p l ih =>
    obtain ⟨i, v⟩ := p
    by_cases h : ok i 0 <;> simp [List.filter_cons, h, ih.1, ih.2]

/-- Initial-pass success count: the number of items whose round-0 outcome
is a success. -/
theorem initTally_fst (videos : List Video) (ok : Nat → Nat → Bool) :
    (initTally videos ok).1 = ((enumFrom 1 videos).filter (fun p => ok p.1 0)).length := by
  simp only [initTally, initResults, tally_spec]
  simpa using (initResults_filter ok (enumFrom 1 videos)).1

/-- Initial-pass failed list: the order-preserving filter of the
enumerated items whose round-0 outcome is a failure. -/
theorem initTally_snd (videos : List Video) (ok : Nat → Nat → Bool) :
    (initTally videos ok).2 = (enumFrom 1 videos).filter (fun p => !(ok p.1 0)) := by
  simp only [initTally, initResults, tally_spec]
  simpa using (initResults_filter ok (enumFrom 1 videos)).2

/-- The 1-based enumeration carries exactly the positions
`n, n+1, …, n+length-1` as first components. -/
theorem enumFrom_map_fst (vs : List Video) :
    ∀ n, (enumFrom n vs).map Prod.fst = List.range' n vs.length := by
  induction vs with
  | nil => intro n; rfl
  | cons v vs ih => intro n; simp [enumFrom, List.range'_succ, ih]

/-- Length of the 1-based enumeration. -/
theorem enumFrom_length (vs : List Video) : ∀ n, (enumFrom n vs).length = vs.length := by
  induction vs with
  | nil => intro n; rfl
  | cons v vs ih => intro n; simp [enumFrom, ih]

/-- Enumeration positions are strictly increasing. -/
theorem enumFrom_fst_sorted (n : Nat) (vs : List Video) :
    ((enumFrom n vs).map Prod.fst).Pairwise (· < ·) := by
  rw [enumFrom_map_fst]
  exact List.pairwise_lt_range' n vs.length

/-- Enumeration positions are pairwise distinct. -/
theorem enumFrom_fst_nodup (n : Nat) (vs : List Video) :
    ((enumFrom n vs).map Prod.fst).Nodup := by
  rw [enumFrom_map_fst]
  exact List.nodup_range' n vs.length

/-- The retry loop preserves `success_count + len(failed_videos)`. -/
theorem retryLoop_sum (ok : Nat → Nat → Bool) :
    ∀ (r a sc : Nat) (f : List (Nat × Video)),
      (retryLoop ok r a sc f).1 + (retryLoop ok r a sc f).2.length = sc + f.length := by
  intro r
  induction r with
  | zero => intro a sc f; simp [retryLoop]
  | succ r ih =>
    intro a sc f
    simp only [retryLoop, retryRound_spec]
    have hpart := length_filter_partition f (fun p => ok p.1 a)
    by_cases h : (f.filter (fun p => !(ok p.1 a))).isEmpty = true
    · rw [if_pos h]
      have h0 : (f.filter (fun p => !(ok p.1 a))).length = 0 := by
        rw [List.isEmpty_iff] at h
        simp [h]
      simp only []
      omega
    · rw [if_neg h]
      have := ih (a + 1) (sc + (f.filter (fun p => ok p.1 a)).length)
        (f.filter (fun p => !(ok p.1 a)))
      omega

/-- The failed list produced by the retry loop is a sublist of the failed
list it starts from. -/
theorem retryLoop_failed_sublist (ok : Nat → Nat → Bool) :
    ∀ (r a sc : Nat) (f : List (Nat × Video)),
      List.Sublist (retryLoop ok r a sc f).2 f := by
  intro r
  induction r with
  | zero => intro a sc f; simp [retryLoop]
  | succ r ih =>
    intro a sc f
    simp only [retryLoop, retryRound_spec]
    by_cases h : (f.filter (fun p => !(ok p.1 a))).isEmpty = true
    · rw [if_pos h]
      exact List.filter_sublist f
    · rw [if_neg h]
      exact (ih (a + 1) _ _).trans (List.filter_sublist f)

/-- Projecting the first components of a round's trace gives the failed
list's indices. -/
theorem roundTrace_map_fst (f : List (Nat × Video)) (a : Nat) :
    ((f.map (fun p => (p.1, a))).map Prod.fst) = f.map Prod.fst := by
  simp [List.map_map, Function.comp]

/-- Each item is invoked at most once per retry round with distinct
pending indices, so the whole retry loop invokes an item at most once
per allowed round. -/
theorem retryTrace_count_le (ok : Nat → Nat → Bool) (i : Nat) :
    ∀ (r a : Nat) (f : List (Nat × Video)), (f.map Prod.fst).Nodup →
      ((retryTrace ok r a f).map Prod.fst).count i ≤ r := by
  intro r
  induction r with
  | zero => intro a f _; simp [retryTrace]
  | succ r ih =>
    intro a f hnd
    simp only [retryTrace, retryRound_spec, List.map_append, List.count_append]
    have h1 : ((f.map (fun p => (p.1, a))).map Prod.fst).count i ≤ 1 := by
      rw [roundTrace_map_fst]
      exact List.nodup_iff_count_le_one.mp hnd i
    have h2 : (((if (f.filter (fun p => !(ok p.1 a))).isEmpty then []
        else retryTrace ok r (a + 1) (f.filter (fun p => !(ok p.1 a)))).map Prod.fst).count i) ≤ r := by
      by_cases h : (f.filter (fun p => !(ok p.1 a))).isEmpty = true
      · rw [if_pos h]; simp
      · rw [if_neg h]
        refine ih (a + 1) _ (hnd.sublist ?_)
        exact (List.filter_sublist f).map Prod.fst
    omega

/-- The retry loop never runs more rounds than its budget. -/
theorem retryRoundsRun_le (ok : Nat → Nat → Bool) :
    ∀ (r a : Nat) (f : List (Nat × Video)), retryRoundsRun ok r a f ≤ r := by
  intro r
  induction r with
  | zero => intro a f; simp [retryRoundsRun]
  | succ r ih =>
    intro a f
    simp only [retryRoundsRun]
    by_cases h : ((retryRound ok a f 0).2).isEmpty = true
    · rw [if_pos h]; omega
    · rw [if_neg h]
      have := ih (a + 1) (retryRound ok a f 0).2
      omega

/-- Early exit: when a non-empty failed set empties after `k` rounds of
re-attempts, the loop executes at most `k` rounds. -/
theorem retryRoundsRun_early (ok : Nat → Nat → Bool) :
    ∀ (k r a : Nat) (f : List (Nat × Video)), f ≠ [] →
      iterFailed ok k a f = [] → retryRoundsRun ok r a f ≤ k := by
  intro k
  induction k with
  | zero => intro r a f hne hit; exact absurd hit hne
  | succ k ih =>
    intro r a f hne hit
    cases r with
    | zero => simp [retryRoundsRun]
    | succ r =>
      simp only [retryRoundsRun, retryRound_spec]
      by_cases h : (f.filter (fun p => !(ok p.1 a))).isEmpty = true
      · rw [if_pos h]; omega
      · rw [if_neg h]
        have hne2 : f.filter (fun p => !(ok p.1 a)) ≠ [] := by
          intro hcon
          rw [hcon] at h
          exact h rfl
        have hit2 : iterFailed ok k (a + 1) (f.filter (fun p => !(ok p.1 a))) = [] := hit
        have := ih r (a + 1) (f.filter (fun p => !(ok p.1 a))) hne2 hit2
        omega

/-- Every retry-trace entry records a round at or after the loop's start
round, and its item was still in the failed set entering that round. -/
theorem retryTrace_mem (ok : Nat → Nat → Bool) (i b : Nat) :
    ∀ (r a : Nat) (f : List (Nat × Video)), (i, b) ∈ retryTrace ok r a f →
      a ≤ b ∧ i ∈ (iterFailed ok (b - a) a f).map Prod.fst := by
  intro r
  induction r with
  | zero => intro a f h; simp [retryTrace] at h
  | succ r ih =>
    intro a f h
    simp only [retryTrace, retryRound_spec, List.mem_append] at h
    rcases h with h | h
    · rw [List.mem_map] at h
      obtain ⟨p, hp, hpi⟩ := h
      rw [Prod.mk.injEq] at hpi
      obtain ⟨hia, hba⟩ := hpi
      subst hba
      refine ⟨Nat.le_refl a, ?_⟩
      simp only [Nat.sub_self, iterFailed]
      exact List.mem_map.mpr ⟨p, hp, hia⟩
    · by_cases hsf : (f.filter (fun p => !(ok p.1 a))).isEmpty = true
      · rw [if_pos hsf] at h
        simp at h
      · rw [if_neg hsf] at h
        obtain ⟨hab, hmem⟩ := ih (a + 1) (f.filter (fun p => !(ok p.1 a))) h
        refine ⟨Nat.le_of_succ_le hab, ?_⟩
        have hk : b - a = (b - (a + 1)) + 1 := by omega
        rw [hk]
        exact hmem

/-- Stripping removes only a whitespace prefix and a whitespace suffix:
the input splits as `pre ++ stripChars cs ++ suf` with `pre` and `suf`
all whitespace. -/
theorem stripChars_decomposition (cs : List Char) :
    ∃ pre suf : List Char, pre.all pyIsSpace ∧ suf.all pyIsSpace ∧
      pre ++ stripChars cs ++ suf = cs := by
  refine ⟨cs.takeWhile pyIsSpace,
    ((cs.dropWhile pyIsSpace).reverse.takeWhile pyIsSpace).reverse, ?_, ?_, ?_⟩
  · rw [List.all_eq_true]
    intro c hc
    exact List.mem_takeWhile_imp hc
  · rw [List.all_eq_true]
    intro c hc
    rw [List.mem_reverse] at hc
    exact List.mem_takeWhile_imp hc
  · unfold stripChars
    conv_rhs => rw [← List.takeWhile_append_dropWhile pyIsSpace cs]
    rw [List.append_assoc]
    congr 1
    rw [← List.reverse_append, List.takeWhile_append_dropWhile, List.reverse_reverse]

/-- Python's substring operator agrees with list infixes: `needle in hay`
holds exactly when the needle's characters occur contiguously in the
haystack's. -/
theorem strContains_iff (hay needle : String) :
    strContains hay needle = true ↔ needle.toList <:+: hay.toList := by
  unfold strContains
  rw [List.any_eq_true]
  constructor
  · rintro ⟨i, _, hp⟩
    rw [List.isPrefixOf_iff_prefix] at hp
    obtain ⟨t, ht⟩ := hp
    exact ⟨hay.toList.take i, t, by rw [List.append_assoc, ht, List.take_append_drop]⟩
  · rintro ⟨s, t, hst⟩
    refine ⟨s.length, ?_, ?_⟩
    · rw [List.mem_range]
      have hlen : s.length + (needle.toList.length + t.length) = hay.toList.length := by
        rw [← hst]
        simp [List.length_append]
      omega
    · rw [List.isPrefixOf_iff_prefix]
      refine ⟨t, ?_⟩
      have hd : hay.toList.drop s.length = needle.toList ++ t := by
        rw [← hst, List.append_assoc, List.drop_left]
      rw [hd]

/-- C9: `sanitize_filename` is a pure, total, deterministic string
function: it removes every occurrence of the characters in the class
`<>:"/\|?*` and then trims leading and trailing whitespace, leaving all
interior characters unchanged (its result is the filtered character
sequence with exactly a whitespace prefix and suffix removed); on the
spec's examples it yields "abcd" and "name". -/
theorem C9_sanitize :
    (∀ s : String, sanitize_filename s =
        (stripChars (s.toList.filter (fun c => !(badChar c)))).asString) ∧
    (∀ s : String, ∃ pre suf : List Char, pre.all pyIsSpace ∧ suf.all pyIsSpace ∧
        pre ++ (sanitize_filename s).toList ++ suf =
          s.toList.filter (fun c => !(badChar c))) ∧
    sanitize_filename "a/b:c*d" = "abcd" ∧
    sanitize_filename "  name  " = "name" := by
  refine ⟨?_, ?_, by decide, by decide⟩
  · intro s
    rw [sanitize_filename, reSubDeleteBad_eq_filter]
  · intro s
    obtain ⟨pre, suf, h1, h2, h3⟩ :=
      stripChars_decomposition (s.toList.filter (fun c => !(badChar c)))
    refine ⟨pre, suf, h1, h2, ?_⟩
    rw [sanitize_filename, reSubDeleteBad_eq_filter]
    exact h3

/-- C8: the target filename is `sanitize(title) + "." + ext` with
extension "mp3" exactly when `audioOnly` holds and `audioFormat` is
"mp3" (and "mp4" otherwise), and the zero-padded two-digit index prefix
plus separator is prepended exactly when an index is supplied and
`prefixIndex` holds; index 3, title "Clip", audioOnly false gives
"03_Clip.mp4". -/
theorem C8_filename :
    (∀ (cfg : Config) (title : String) (i : Nat),
        target_filename cfg title (some i) =
          (if cfg.prefixIndex then pad2 i ++ "_" else "") ++
            (sanitize_filename title ++ "." ++ audio_ext cfg)) ∧
    (∀ (cfg : Config) (title : String),
        target_filename cfg title none =
          sanitize_filename title ++ "." ++ audio_ext cfg) ∧
    (∀ cfg : Config, audio_ext cfg = "mp3" ↔
        cfg.audioOnly = true ∧ cfg.audioFormat = "mp3") ∧
    target_filename ⟨"highest", false, "mp4", true, false, 1, 4⟩ "Clip" (some 3)
      = "03_Clip.mp4" := by
  refine ⟨?_, ?_, ?_, by decide⟩
  · intro cfg title i
    by_cases h : cfg.prefixIndex = true <;>
      simp [target_filename, h, String.append_assoc]
  · intro cfg title
    rfl
  · intro cfg
    constructor
    · intro h
      by_cases hb : (cfg.audioOnly && (cfg.audioFormat == "mp3")) = true
      · rw [Bool.and_eq_true] at hb
        refine ⟨hb.1, ?_⟩
        have := hb.2
        simpa using this
      · rw [audio_ext, if_neg hb] at h
        exact absurd h (by decide)
    · rintro ⟨h1, h2⟩
      simp [audio_ext, h1, h2]

/-- Witness for C8: a configuration with `audioOnly` and `audioFormat`
"mp3" yields the "mp3" extension, by the equivalence. -/
theorem C8_filename_witness :
    audio_ext ⟨"highest", true, "mp3", true, false, 1, 4⟩ = "mp3" :=
  (C8_filename.2.2.1 ⟨"highest", true, "mp3", true, false, 1, 4⟩).mpr ⟨rfl, rfl⟩

/-- C10: a target is dispatched to the playlist path exactly when its
lower-cased text contains the substring "playlist" (as a contiguous
infix); every other URL takes the single-item path; a watch URL merely
containing "playlist" in a query parameter is dispatched as a
collection. -/
theorem C10_dispatch :
    (∀ url : String, containsPlaylist url = true ↔
        List.IsInfix "playlist".toList (pyLower url).toList) ∧
    (∀ (cfg : Config) (url : String) (pl : List Video) (single : Video)
        (ok : Nat → Nat → Bool) (env : Env), containsPlaylist url = true →
        download cfg url pl single ok env = download_playlist cfg pl ok) ∧
    (∀ (cfg : Config) (url : String) (pl : List Video) (single : Video)
        (ok : Nat → Nat → Bool) (env : Env), containsPlaylist url = false →
        download cfg url pl single ok env = Except.ok (singleSummary cfg single env)) ∧
    containsPlaylist "https://www.youtube.com/watch?v=abc&list=MyPlaylist12" = true := by
  refine ⟨?_, ?_, ?_, by decide⟩
  · intro url
    exact strContains_iff (pyLower url) "playlist"
  · intro cfg url pl single ok env h
    simp [download, h]
  · intro cfg url pl single ok env h
    simp [download, h]

/-- C4: the single-item downloader converts every error into the failure
result `false` instead of propagating it: a raise while resolving the
streams, the absence of any matching stream, and a raise during the byte
transfer each yield `false`, and the call always returns one of the two
boolean outcomes (its type carries no exception). -/
theorem C4_no_propagation :
    ∀ (cfg : Config) (yt : Video) (env : Env) (idx : Option Nat),
      (yt.streamsRaise = true → download_single_video cfg yt env idx = false) ∧
      (get_stream cfg yt = none → download_single_video cfg yt env idx = false) ∧
      (∀ e : String, env.transferError = some e →
        download_single_video cfg yt env idx = false) ∧
      (download_single_video cfg yt env idx = true ∨
        download_single_video cfg yt env idx = false) := by
  intro cfg yt env idx
  refine ⟨?_, ?_, ?_, ?_⟩
  · intro h
    have hs : get_stream cfg yt = none := by
      simp [get_stream, h]
    simp [download_single_video, download_single_video_full, hs]
  · intro h
    simp [download_single_video, download_single_video_full, h]
  · intro e h
    cases hg : get_stream cfg yt with
    | none => simp [download_single_video, download_single_video_full, hg]
    | some s => simp [download_single_video, download_single_video_full, hg, h]
  · cases h : download_single_video cfg yt env idx
    · exact Or.inr rfl
    · exact Or.inl rfl

/-- C5: when transcoding is required and `convert_to_mp3` reports failure
(which happens exactly when ffmpeg is unavailable or its run fails), the
downloader renames the temporary file to the `.mp4` suffix and still
returns success. -/
theorem C5_transcode_fallback :
    ∀ (cfg : Config) (yt : Video) (env : Env) (idx : Option Nat),
      cfg.audioOnly = true → cfg.audioFormat = "mp3" →
      get_stream cfg yt ≠ none → env.transferError = none →
      convert_to_mp3 env = false → env.renameError = none →
      download_single_video cfg yt env idx = true ∧
      (download_single_video_full cfg yt env idx).savedFile =
        some (withSuffix (target_filename cfg yt.title idx) ".mp4") ∧
      (convert_to_mp3 env = false ↔
        (check_ffmpeg env = false ∨ env.ffmpegRunOk = false)) := by
  intro cfg yt env idx h1 h2 h3 h4 h5 h6
  cases hg : get_stream cfg yt with
  | none => exact absurd hg h3
  | some s =>
    have hcond : (cfg.audioOnly && (cfg.audioFormat == "mp3")) = true := by
      simp [h1, h2]
    refine ⟨?_, ?_, ?_⟩
    · simp [download_single_video, download_single_video_full, hg, h4, hcond, h5, h6]
    · simp [download_single_video_full, hg, h4, hcond, h5, h6]
    · unfold convert_to_mp3 check_ffmpeg
      cases hA : env.ffmpegAvailable <;> cases hR : env.ffmpegRunOk <;> simp

/-! ### Concrete inputs shared by the witnesses and counterexample -/

/-- Sample progressive 720p video with one mp4 stream. -/
def vidA : Video := ⟨"Clip", "https://youtu.be/a", [⟨false, true, "mp4", "720p", 7, 0⟩], false⟩

/-- Sample audio-capable video with one audio-only mp4 stream. -/
def vidB : Video := ⟨"Song", "https://youtu.be/b", [⟨true, false, "mp4", "", 0, 5⟩], false⟩

/-- Sample video whose stream query raises. -/
def vidRaise : Video := ⟨"Broken", "https://youtu.be/c", [], true⟩

/-- Configuration with retries enabled (two attempts). -/
def cfgRetry : Config := ⟨"highest", false, "mp4", true, true, 2, 4⟩

/-- Configuration with retries disabled. -/
def cfgNoRetry : Config := ⟨"highest", false, "mp4", true, false, 1, 4⟩

/-- Configuration with a non-positive concurrency bound. -/
def cfgZero : Config := ⟨"highest", false, "mp4", true, false, 1, 0⟩

/-- Audio-only mp3 configuration. -/
def cfgMp3 : Config := ⟨"highest", true, "mp3", false, false, 1, 4⟩

/-- Environment in which every effectful step succeeds. -/
def envOk : Env := ⟨none, true, true, none⟩

/-- Environment without ffmpeg (everything else succeeds). -/
def envNoFfmpeg : Env := ⟨none, false, true, none⟩

/-- Oracle under which every attempt succeeds. -/
def okAll : Nat → Nat → Bool := fun _ _ => true

/-- Oracle under which only item 1 ever succeeds. -/
def okOnlyFirst : Nat → Nat → Bool := fun i _ => i == 1

/-- Oracle under which item 1 succeeds immediately and every item
succeeds from retry round 1 on. -/
def okFirstThenAll : Nat → Nat → Bool := fun i a => (i == 1) || (a == 1)

/-- Witness for C4: a video whose stream query raises is reported as a
failure outcome. -/
theorem C4_no_propagation_witness :
    download_single_video cfgNoRetry vidRaise envOk none = false :=
  (C4_no_propagation cfgNoRetry vidRaise envOk none).1 rfl

/-- Witness for C5: without ffmpeg, the audio-only mp3 download of the
sample song succeeds and keeps the bytes under "Song.mp4". -/
theorem C5_transcode_fallback_witness :
    download_single_video cfgMp3 vidB envNoFfmpeg none = true ∧
    (download_single_video_full cfgMp3 vidB envNoFfmpeg none).savedFile =
      some (withSuffix (target_filename cfgMp3 vidB.title none) ".mp4") :=
  have h := C5_transcode_fallback cfgMp3 vidB envNoFfmpeg none rfl rfl
    (by decide) rfl (by decide) rfl
  ⟨h.1, h.2.1⟩

/-- C1: after the initial pass, after each retry round, and in the final
summary, the succeeded count plus the failed-list length equals the
total item count. -/
theorem C1_sum_invariant :
    (∀ (videos : List Video) (ok : Nat → Nat → Bool),
        (initTally videos ok).1 + (initTally videos ok).2.length = videos.length) ∧
    (∀ (ok : Nat → Nat → Bool) (a : Nat) (f : List (Nat × Video)) (sc : Nat),
        (retryRound ok a f sc).1 + (retryRound ok a f sc).2.length = sc + f.length) ∧
    (∀ (cfg : Config) (videos : List Video) (ok : Nat → Nat → Bool) (b : BatchResult),
        download_playlist cfg videos ok = Except.ok b →
        b.succeeded + b.failed.length = b.total) := by
  have hinit : ∀ (videos : List Video) (ok : Nat → Nat → Bool),
      (initTally videos ok).1 + (initTally videos ok).2.length = videos.length := by
    intro videos ok
    rw [initTally_fst, initTally_snd]
    have hp := length_filter_partition (enumFrom 1 videos) (fun p => ok p.1 0)
    have hl := enumFrom_length videos 1
    omega
  refine ⟨hinit, ?_, ?_⟩
  · intro ok a f sc
    rw [retryRound_spec]
    have hp := length_filter_partition f (fun p => ok p.1 a)
    show sc + (f.filter (fun p => ok p.1 a)).length +
      (f.filter (fun p => !(ok p.1 a))).length = sc + f.length
    omega
  · intro cfg videos ok b h
    simp only [download_playlist] at h
    by_cases hmc : cfg.maxConcurrent ≤ 0
    · rw [if_pos hmc] at h
      cases h
    · rw [if_neg hmc] at h
      rw [Except.ok.injEq] at h
      subst h
      by_cases hg : (cfg.retry && !(initTally videos ok).2.isEmpty) = true
      · rw [if_pos hg]
        show (retryLoop ok cfg.retryAttempts 1
            (initTally videos ok).1 (initTally videos ok).2).1 +
          (retryLoop ok cfg.retryAttempts 1
            (initTally videos ok).1 (initTally videos ok).2).2.length = videos.length
        have hs := retryLoop_sum ok cfg.retryAttempts 1
          (initTally videos ok).1 (initTally videos ok).2
        have hi := hinit videos ok
        omega
      · rw [if_neg hg]
        exact hinit videos ok

/-- Witness for C1: a two-item batch where item 2 fails the initial pass
and recovers in the first retry round satisfies the final-summary
equation, by the theorem at that input. -/
theorem C1_sum_invariant_witness :
    (⟨2, 2, []⟩ : BatchResult).succeeded + (⟨2, 2, []⟩ : BatchResult).failed.length
      = (⟨2, 2, []⟩ : BatchResult).total :=
  C1_sum_invariant.2.2 cfgRetry [vidA, vidB] okFirstThenAll ⟨2, 2, []⟩ rfl

/-- C2: the failed list is ordered by strictly ascending 1-based index
after the initial pass, after every retry round (order is preserved),
and in the final summary, for every outcome oracle (hence regardless of
completion order, which the collected result order never reflects). -/
theorem C2_failed_sorted :
    (∀ (videos : List Video) (ok : Nat → Nat → Bool),
        (((initTally videos ok).2).map Prod.fst).Pairwise (· < ·)) ∧
    (∀ (ok : Nat → Nat → Bool) (a : Nat) (f : List (Nat × Video)) (sc : Nat),
        ((f.map Prod.fst).Pairwise (· < ·)) →
        ((((retryRound ok a f sc).2).map Prod.fst).Pairwise (· < ·))) ∧
    (∀ (cfg : Config) (videos : List Video) (ok : Nat → Nat → Bool) (b : BatchResult),
        download_playlist cfg videos ok = Except.ok b →
        ((b.failed.map Prod.fst).Pairwise (· < ·))) := by
  have hinit : ∀ (videos : List Video) (ok : Nat → Nat → Bool),
      (((initTally videos ok).2).map Prod.fst).Pairwise (· < ·) := by
    intro videos ok
    rw [initTally_snd]
    exact (enumFrom_fst_sorted 1 videos).sublist ((List.filter_sublist _).map Prod.fst)
  refine ⟨hinit, ?_, ?_⟩
  · intro ok a f sc hs
    rw [retryRound_spec]
    exact hs.sublist ((List.filter_sublist f).map Prod.fst)
  · intro cfg videos ok b h
    simp only [download_playlist] at h
    by_cases hmc : cfg.maxConcurrent ≤ 0
    · rw [if_pos hmc] at h
      cases h
    · rw [if_neg hmc] at h
      rw [Except.ok.injEq] at h
      subst h
      by_cases hg : (cfg.retry && !(initTally videos ok).2.isEmpty) = true
      · rw [if_pos hg]
        exact (hinit videos ok).sublist
          ((retryLoop_failed_sublist ok cfg.retryAttempts 1
            (initTally videos ok).1 (initTally videos ok).2).map Prod.fst)
      · rw [if_neg hg]
        exact hinit videos ok

/-- Witness for C2: the final failed list of a no-retry batch in which
only item 1 succeeds is index-sorted, by the theorem at that input. -/
theorem C2_failed_sorted_witness :
    ((([(2, vidB)] : List (Nat × Video)).map Prod.fst).Pairwise (· < ·)) :=
  C2_failed_sorted.2.2 cfgNoRetry [vidA, vidB] okOnlyFirst ⟨2, 1, [(2, vidB)]⟩ rfl

/-- C6: the entry point reports the batch aggregate (total, succeeded,
failed-after-retries): on a non-collection target it invokes the single
download exactly once with no index — so the filename takes no prefix —
and wraps the result in the degenerate aggregate with total 1; on a
collection target it reports the orchestrator's aggregate. -/
theorem C6_entry_point :
    (∀ (cfg : Config) (url : String) (pl : List Video) (single : Video)
        (ok : Nat → Nat → Bool) (env : Env), containsPlaylist url = false →
        download cfg url pl single ok env = Except.ok (singleSummary cfg single env) ∧
        (singleSummary cfg single env).total = 1 ∧
        (singleSummary cfg single env).succeeded =
          (if download_single_video cfg single env none then 1 else 0) ∧
        downloadCalls cfg url pl ok = [none]) ∧
    (∀ (cfg : Config) (url : String) (pl : List Video) (single : Video)
        (ok : Nat → Nat → Bool) (env : Env), containsPlaylist url = true →
        download cfg url pl single ok env = download_playlist cfg pl ok) ∧
    (∀ (cfg : Config) (title : String),
        target_filename cfg title none = sanitize_filename title ++ "." ++ audio_ext cfg) := by
  refine ⟨?_, ?_, ?_⟩
  · intro cfg url pl single ok env h
    refine ⟨by simp [download, h], ?_, ?_, by simp [downloadCalls, h]⟩
    · cases hd : download_single_video cfg single env none <;> simp [singleSummary, hd]
    · cases hd : download_single_video cfg single env none <;> simp [singleSummary, hd]
  · intro cfg url pl single ok env h
    simp [download, h]
  · intro cfg title
    rfl

/-- Witness for C6: a plain watch URL is reported with total 1 and a
single index-free invocation, by the theorem at that input. -/
theorem C6_entry_point_witness :
    (singleSummary cfgNoRetry vidA envOk).total = 1 ∧
    downloadCalls cfgNoRetry "https://youtu.be/x" [] okOnlyFirst = [none] :=
  have h := C6_entry_point.1 cfgNoRetry "https://youtu.be/x" [] vidA okOnlyFirst envOk
    (by decide)
  ⟨h.2.1, h.2.2.2⟩

/-- C7 counterexample: with `maxConcurrent = 0` and a single-video URL,
the configuration is not rejected: the one download task is dispatched
(the invocation list is non-empty) and the run completes with a success
summary. -/
theorem C7_counterexample :
    cfgZero.maxConcurrent ≤ 0 ∧
    containsPlaylist "https://www.youtube.com/watch?v=abc" = false ∧
    downloadCalls cfgZero "https://www.youtube.com/watch?v=abc" [] okAll ≠ [] ∧
    download cfgZero "https://www.youtube.com/watch?v=abc" [] vidA okAll envOk =
      Except.ok ⟨1, 1, []⟩ :=
  ⟨by decide, by decide, by decide, rfl⟩

/-- C7 amended: a non-positive `maxConcurrent` aborts the run before any
task is dispatched on the collection path only (the worker-pool
constructor raises); on the single-item path the bound is never read, so
the single download proceeds and its outcome is independent of
`maxConcurrent`. -/
theorem C7_amended :
    (∀ (cfg : Config) (videos : List Video) (ok : Nat → Nat → Bool),
        cfg.maxConcurrent ≤ 0 →
        download_playlist cfg videos ok =
          Except.error "max_workers must be greater than 0" ∧
        playlistTrace cfg videos ok = []) ∧
    (∀ (cfg : Config) (url : String) (pl : List Video) (single : Video)
        (ok : Nat → Nat → Bool) (env : Env), containsPlaylist url = false →
        download cfg url pl single ok env = Except.ok (singleSummary cfg single env)) ∧
    (∀ (cfg : Config) (m : Int) (single : Video) (env : Env),
        singleSummary { cfg with maxConcurrent := m } single env =
          singleSummary cfg single env) := by
  refine ⟨?_, ?_, ?_⟩
  · intro cfg videos ok h
    constructor
    · simp only [download_playlist]
      rw [if_pos h]
    · simp only [playlistTrace]
      rw [if_pos h]
  · intro cfg url pl single ok env h
    simp [download, h]
  · intro cfg m single env
    rfl

/-- Witness for C7 amended: the zero-bound configuration on a one-item
collection yields the worker-pool error and an empty invocation trace,
by the theorem at that input. -/
theorem C7_amended_witness :
    download_playlist cfgZero [vidA] okAll =
      Except.error "max_workers must be greater than 0" ∧
    playlistTrace cfgZero [vidA] okAll = [] :=
  C7_amended.1 cfgZero [vidA] okAll (by decide)

/-- C3: with retry disabled every item is invoked exactly once; with
retry enabled and `retryAttempts = N` every item is invoked at most
`N + 1` times; an item is re-invoked in retry round `b` only if it was
still failed entering that round; and the retry loop executes at most
`N` rounds and stops as soon as the failed set empties. -/
theorem C3_attempt_bounds :
    (∀ (cfg : Config) (videos : List Video) (ok : Nat → Nat → Bool) (i : Nat),
        cfg.retry = false → 0 < cfg.maxConcurrent →
        ((playlistTrace cfg videos ok).map Prod.fst).count i =
          if 1 ≤ i ∧ i ≤ videos.length then 1 else 0) ∧
    (∀ (cfg : Config) (videos : List Video) (ok : Nat → Nat → Bool) (i : Nat),
        ((playlistTrace cfg videos ok).map Prod.fst).count i ≤ cfg.retryAttempts + 1) ∧
    (∀ (cfg : Config) (videos : List Video) (ok : Nat → Nat → Bool) (i b : Nat),
        (i, b) ∈ playlistTrace cfg videos ok → 1 ≤ b →
        i ∈ ((iterFailed ok (b - 1) 1 (initTally videos ok).2).map Prod.fst)) ∧
    (∀ (cfg : Config) (videos : List Video) (ok : Nat → Nat → Bool) (k : Nat),
        (initTally videos ok).2 ≠ [] →
        iterFailed ok k 1 (initTally videos ok).2 = [] →
        playlistRoundsRun cfg videos ok ≤ k) ∧
    (∀ (cfg : Config) (videos : List Video) (ok : Nat → Nat → Bool),
        playlistRoundsRun cfg videos ok ≤ cfg.retryAttempts) := by
  have hnd : ∀ (videos : List Video) (ok : Nat → Nat → Bool),
      (((initTally videos ok).2).map Prod.fst).Nodup := by
    intro videos ok
    rw [initTally_snd]
    exact (enumFrom_fst_nodup 1 videos).sublist ((List.filter_sublist _).map Prod.fst)
  have hcount : ∀ (videos : List Video) (i : Nat),
      (List.range' 1 videos.length).count i =
        if 1 ≤ i ∧ i ≤ videos.length then 1 else 0 := by
    intro videos i
    by_cases hm : i ∈ List.range' 1 videos.length
    · have hm2 := hm
      rw [List.mem_range'_1] at hm2
      obtain ⟨hm1, hm3⟩ := hm2
      rw [List.count_eq_one_of_mem (List.nodup_range' 1 videos.length) hm,
        if_pos ⟨hm1, by omega⟩]
    · rw [List.count_eq_zero.mpr hm, if_neg]
      intro hcon
      apply hm
      rw [List.mem_range'_1]
      omega
  refine ⟨?_, ?_, ?_, ?_, ?_⟩
  · intro cfg videos ok i hr hmc
    have hmc' : ¬(cfg.maxConcurrent ≤ 0) := by omega
    simp only [playlistTrace]
    rw [if_neg hmc']
    have hg : ¬((cfg.retry && !(initTally videos ok).2.isEmpty) = true) := by
      simp [hr]
    rw [if_neg hg, List.append_nil, roundTrace_map_fst, enumFrom_map_fst]
    exact hcount videos i
  · intro cfg videos ok i
    simp only [playlistTrace]
    by_cases hmc : cfg.maxConcurrent ≤ 0
    · rw [if_pos hmc]
      simp
    · rw [if_neg hmc]
      have h1 : (((enumFrom 1 videos).map (fun p => (p.1, 0))).map Prod.fst).count i ≤ 1 := by
        rw [roundTrace_map_fst, enumFrom_map_fst]
        exact List.nodup_iff_count_le_one.mp (List.nodup_range' 1 videos.length) i
      by_cases hg : (cfg.retry && !(initTally videos ok).2.isEmpty) = true
      · rw [if_pos hg, List.map_append, List.count_append]
        have h2 := retryTrace_count_le ok i cfg.retryAttempts 1
          (initTally videos ok).2 (hnd videos ok)
        omega
      · rw [if_neg hg, List.append_nil]
        omega
  · intro cfg videos ok i b hmem hb
    simp only [playlistTrace] at hmem
    by_cases hmc : cfg.maxConcurrent ≤ 0
    · rw [if_pos hmc] at hmem
      simp at hmem
    · rw [if_neg hmc] at hmem
      rw [List.mem_append] at hmem
      rcases hmem with h | h
      · rw [List.mem_map] at h
        obtain ⟨p, _, hpe⟩ := h
        rw [Prod.mk.injEq] at hpe
        omega
      · by_cases hg : (cfg.retry && !(initTally videos ok).2.isEmpty) = true
        · rw [if_pos hg] at h
          exact (retryTrace_mem ok i b cfg.retryAttempts 1 (initTally videos ok).2 h).2
        · rw [if_neg hg] at h
          simp at h
  · intro cfg videos ok k hne hit
    simp only [playlistRoundsRun]
    by_cases hmc : cfg.maxConcurrent ≤ 0
    · rw [if_pos hmc]
      omega
    · rw [if_neg hmc]
      by_cases hg : (cfg.retry && !(initTally videos ok).2.isEmpty) = true
      · rw [if_pos hg]
        exact retryRoundsRun_early ok k cfg.retryAttempts 1 (initTally videos ok).2 hne hit
      · rw [if_neg hg]
        omega
  · intro cfg videos ok
    simp only [playlistRoundsRun]
    by_cases hmc : cfg.maxConcurrent ≤ 0
    · rw [if_pos hmc]
      omega
    · rw [if_neg hmc]
      by_cases hg : (cfg.retry && !(initTally videos ok).2.isEmpty) = true
      · rw [if_pos hg]
        exact retryRoundsRun_le ok cfg.retryAttempts 1 (initTally videos ok).2
      · rw [if_neg hg]
        omega

/-- Witness for C3: in the no-retry two-item run, item 2 is invoked
exactly once, by the theorem at that input. -/
theorem C3_attempt_bounds_witness :
    ((playlistTrace cfgNoRetry [vidA, vidB] okOnlyFirst).map Prod.fst).count 2 =
      if 1 ≤ 2 ∧ 2 ≤ ([vidA, vidB] : List Video).length then 1 else 0 :=
  C3_attempt_bounds.1 cfgNoRetry [vidA, vidB] okOnlyFirst 2 rfl (by decide)

/-- Witness for C10: a URL containing "playlist" dispatches to the
playlist path, by the theorem at that input. -/
theorem C10_dispatch_witness :
    download cfgNoRetry "https://www.youtube.com/playlist?list=1" [vidA] vidB okAll envOk =
      download_playlist cfgNoRetry [vidA] okAll :=
  C10_dispatch.2.1 cfgNoRetry "https://www.youtube.com/playlist?list=1" [vidA] vidB
    okAll envOk (by decide)
